import Mathlib

/-!
Shallow embedding of the access-resolution core of the repository
(`src/sentry/auth/access.py`): the `Access` evaluator hierarchy and the
factory functions that construct evaluators from a calling context.

Modelling conventions:
* Python `frozenset[str]` becomes `Finset String`; `frozenset[int]` becomes
  `Finset Nat`; Python lists/iterables become Lean `List`s.
* Database tables queried by the module (`OrganizationMember`,
  `OrganizationMemberTeam`, `Team`, `Project`) are modelled as a `Database`
  record passed explicitly to the methods that query them.
* External collaborators that live outside this repository's sources
  (the role registry `roles`, `access_service`, `get_superuser_scopes`,
  `is_system_auth`, the feature-flag service, `settings.SENTRY_SCOPES`)
  are modelled as explicit parameters; definitions derived from the spec's
  description rather than from source code carry a doc comment starting
  with `Modelled from the spec:`.
* Python truthiness tests (`if scopes:`, `if user_id:`) are modelled
  explicitly: `None` and empty collections and `0` are falsy.
-/

/-- `sentry.models.team.TeamStatus`. -/
inductive TeamStatus where
  | active
  | pending_deletion
  | deletion_in_progress
deriving DecidableEq, Repr

/-- `sentry.constants.ObjectStatus` as used for projects. -/
inductive ObjectStatus where
  | active
  | disabled
  | pending_deletion
  | deletion_in_progress
deriving DecidableEq, Repr

/-- A row of the `Team` model: the fields read by the access module. -/
structure Team where
  id : Nat
  organization_id : Nat
  status : TeamStatus
deriving DecidableEq, Repr

/-- A row of the `Project` model: the fields read by the access module.
`teams` models `project.teams.all()`. -/
structure Project where
  id : Nat
  organization_id : Nat
  status : ObjectStatus
  teams : List Team
deriving DecidableEq, Repr

/-- An organization as seen by the access module: its id, the
`allow_joinleave` flag (`organization.flags.allow_joinleave`), the
per-organization "organizations:team-roles" feature flag (the spec treats
feature evaluation as an injected boolean per organization), and - for the
RPC organization summary - its team and project lists. -/
structure Organization where
  id : Nat
  allow_joinleave : Bool
  feature_team_roles : Bool
  teams : List Team
  projects : List Project

/-- An entry of the static role registry (`sentry.roles`): the fields the
access module reads. -/
structure Role where
  scopes : Finset String
  is_global : Bool

/-- The role registry, `roles.get`: a static mapping from role id to role. -/
abbrev RoleRegistry := String → Role

/-- A team role object (`sentry.roles.manager.TeamRole`): the fields read
by `RpcBackedAccess.has_any_project_scope`. -/
structure TeamRole where
  id : String
  scopes : Finset String

/-- `RpcTeamMember`: one active team membership inside an RPC member
snapshot. `scopes` models `team_membership.scopes` (the team-role derived
scopes serialized on the record). -/
structure RpcTeamMember where
  team_id : Nat
  role : Option TeamRole
  scopes : List String

/-- `RpcOrganizationMember`: the member snapshot carried by an
`RpcUserOrganizationContext`. -/
structure RpcOrganizationMember where
  user_id : Option Nat
  role : String
  scopes : List String
  member_teams : List RpcTeamMember
  project_ids : List Nat

/-- `RpcUserOrganizationContext`. -/
structure RpcUserOrganizationContext where
  user_id : Option Nat
  organization : Organization
  member : Option RpcOrganizationMember

/-- `RpcMemberSsoState`. -/
structure RpcMemberSsoState where
  is_required : Bool
  is_valid : Bool

/-- `RpcAuthState`. -/
structure RpcAuthState where
  sso_state : RpcMemberSsoState
  permissions : List String

/-- A row of the `OrganizationMember` model: the fields read by the access
module (`user_is_active` and `role` are the columns filtered by
`has_role_in_organization`; `id` identifies the row for the
`OrganizationMemberTeam` join). -/
structure OrganizationMember where
  id : Nat
  user_id : Option Nat
  user_is_active : Bool
  organization : Organization
  role : String
  role_scopes : Finset String
  extra_scopes : Finset String

/-- Modelled from the spec: `OrganizationMember.get_scopes` (the model
class is not part of these sources) - the membership's effective scope
set, "role scopes unioned with explicit extra scopes". -/
def OrganizationMember.get_scopes (m : OrganizationMember) : Finset String :=
  m.role_scopes ∪ m.extra_scopes

/-- A row of the `OrganizationMemberTeam` model: the fields read by the
access module. `scopes` models the result of `omt.get_scopes()` (the
team-role derived scopes; the model class is not part of these sources,
so the result is carried on the row). -/
structure OrganizationMemberTeam where
  organizationmember_id : Nat
  team : Team
  is_active : Bool
  role : String
  scopes : Finset String

/-- The database tables queried by the access module. -/
structure Database where
  organization_members : List OrganizationMember
  organization_member_teams : List OrganizationMemberTeam
  teams : List Team
  projects : List Project

/-- The fields of `request.user` read by the factory functions
(a Django `User`/`RpcUser`/`AnonymousUser`). -/
structure RequestUser where
  id : Option Nat
  is_anonymous : Bool
  is_active : Bool
  is_authenticated : Bool
  is_sentry_app : Bool

/-- `AuthenticatedToken`: the fields read by `from_auth`/`from_rpc_auth`.
`is_system` is modelled from the spec: `is_system_auth` (not part of these
sources) recognizes "the internal system credential". -/
structure AuthenticatedToken where
  organization_id : Option Nat
  is_system : Bool

/-- The fields of the request object read by the factory functions. -/
structure Request where
  user : RequestUser
  auth : Option AuthenticatedToken

/-- Modelled from the spec: `is_system_auth` (from `sentry.auth.system`,
not part of these sources) - whether the credential is the internal
system credential. -/
def is_system_auth (auth : AuthenticatedToken) : Bool :=
  auth.is_system

/-- Module-level `has_role_in_organization`: an existence query on the
`OrganizationMember` table filtered by `user_is_active=True`, `user_id`,
`organization_id` and `role`. -/
def has_role_in_organization (db : Database) (role : String)
    (organization : Organization) (user_id : Nat) : Bool :=
  db.organization_members.any fun m =>
    m.user_is_active && m.user_id == some user_id
      && m.organization.id == organization.id && m.role == role

/-- The `if self.scopes_upper_bound: team_scopes &= self.scopes_upper_bound`
pattern shared by the `has_team_scope` / `has_any_project_scope` bodies.
Python truthiness: a `None` or empty upper bound leaves the scopes
unrestricted. -/
def cap_by_upper_bound (upper : Option (Finset String))
    (team_scopes : Finset String) : Finset String :=
  match upper with
  | some u => if u = ∅ then team_scopes else team_scopes ∩ u
  | none => team_scopes

/-- The `DbAccess` dataclass: field defaults as in the source. -/
structure DbAccess where
  sso_is_valid : Bool := false
  requires_sso : Bool := false
  has_open_membership : Bool := false
  has_global_access : Bool := false
  scopes : Finset String := ∅
  scopes_upper_bound : Option (Finset String) := none
  permissions : Finset String := ∅
  _member : Option OrganizationMember := none

/-- `DbAccess._team_memberships` (the filtered row list underlying the
dict comprehension): `OrganizationMemberTeam` rows for this member with
`is_active=True` and `team__status=ACTIVE`; empty when `_member is None`. -/
def DbAccess.team_memberships (db : Database) (a : DbAccess) :
    List OrganizationMemberTeam :=
  match a._member with
  | none => []
  | some m =>
    db.organization_member_teams.filter fun omt =>
      omt.organizationmember_id == m.id && omt.is_active
        && omt.team.status == TeamStatus.active

/-- `self._team_memberships.get(team)`: the dict comprehension
`{omt.team: omt for omt in ...}` keeps the last row for a duplicated
team key, so the lookup returns the last matching row. -/
def DbAccess.team_membership_get (db : Database) (a : DbAccess)
    (team : Team) : Option OrganizationMemberTeam :=
  ((a.team_memberships db).filter fun omt => omt.team == team).getLast?

/-- `DbAccess.team_ids_with_membership`. -/
def DbAccess.team_ids_with_membership (db : Database) (a : DbAccess) :
    Finset Nat :=
  ((a.team_memberships db).map fun omt => omt.team.id).toFinset

/-- `DbAccess.project_ids_with_team_membership`: active projects reachable
through the membership teams (`Project.objects.filter(status=ACTIVE,
teams__in=teams)`). -/
def DbAccess.project_ids_with_team_membership (db : Database)
    (a : DbAccess) : Finset Nat :=
  let teams := (a.team_memberships db).map fun omt => omt.team
  if teams = [] then ∅
  else
    ((db.projects.filter fun p =>
        p.status == ObjectStatus.active
          && p.teams.any fun t => teams.contains t).map fun p => p.id).toFinset

/-- `RpcBackedAccess`. -/
structure RpcBackedAccess where
  rpc_user_organization_context : RpcUserOrganizationContext
  scopes_upper_bound : Option (Finset String)
  auth_state : RpcAuthState

/-- `RpcBackedAccess.has_open_membership`. -/
def RpcBackedAccess.has_open_membership (a : RpcBackedAccess) : Bool :=
  a.rpc_user_organization_context.organization.allow_joinleave

/-- `RpcBackedAccess.has_global_access`: open membership, or the member's
role is marked global in the role registry. -/
def RpcBackedAccess.has_global_access (roles : RoleRegistry)
    (a : RpcBackedAccess) : Bool :=
  if a.has_open_membership then true
  else
    match a.rpc_user_organization_context.member with
    | some m => (roles m.role).is_global
    | none => false

/-- `RpcBackedAccess.scopes`: without a member, the upper bound (or empty);
with a member, the member's scopes, intersected with the upper bound only
when one is present (`if self.scopes_upper_bound is None`). -/
def RpcBackedAccess.scopes (a : RpcBackedAccess) : Finset String :=
  match a.rpc_user_organization_context.member with
  | none => (a.scopes_upper_bound).getD ∅
  | some m =>
    match a.scopes_upper_bound with
    | none => m.scopes.toFinset
    | some upper => m.scopes.toFinset ∩ upper

/-- `RpcBackedAccess.team_ids_with_membership`. -/
def RpcBackedAccess.team_ids_with_membership (a : RpcBackedAccess) :
    Finset Nat :=
  match a.rpc_user_organization_context.member with
  | none => ∅
  | some m => (m.member_teams.map fun mt => mt.team_id).toFinset

/-- `RpcBackedAccess.project_ids_with_team_membership`. -/
def RpcBackedAccess.project_ids_with_team_membership (a : RpcBackedAccess) :
    Finset Nat :=
  match a.rpc_user_organization_context.member with
  | none => ∅
  | some m => m.project_ids.toFinset

/-- `RpcBackedAccess.has_team_access`. -/
def RpcBackedAccess.has_team_access (roles : RoleRegistry)
    (a : RpcBackedAccess) (team : Team) : Bool :=
  if team.status ≠ TeamStatus.active then false
  else if a.has_global_access roles
      ∧ a.rpc_user_organization_context.organization.id = team.organization_id
    then true
  else decide (team.id ∈ a.team_ids_with_membership)

/-- `RpcBackedAccess.get_team_membership`: first member-team record with
the given team id. -/
def RpcBackedAccess.get_team_membership (a : RpcBackedAccess)
    (team_id : Nat) : Option RpcTeamMember :=
  match a.rpc_user_organization_context.member with
  | none => none
  | some m => m.member_teams.find? fun mt => mt.team_id == team_id

/-- `RpcBackedAccess.has_project_access`. -/
def RpcBackedAccess.has_project_access (roles : RoleRegistry)
    (a : RpcBackedAccess) (project : Project) : Bool :=
  if project.status ≠ ObjectStatus.active then false
  else if a.has_global_access roles
      ∧ a.rpc_user_organization_context.member.isSome
      ∧ a.rpc_user_organization_context.organization.id = project.organization_id
    then true
  else decide (project.id ∈ a.project_ids_with_team_membership)

/-- `OrganizationGlobalAccess.has_team_access`. -/
def OrganizationGlobalAccess.has_team_access (organization_id : Nat)
    (team : Team) : Bool :=
  decide (team.organization_id = organization_id
    ∧ team.status = TeamStatus.active)

/-- `OrganizationGlobalAccess.has_project_access`. -/
def OrganizationGlobalAccess.has_project_access (organization_id : Nat)
    (project : Project) : Bool :=
  decide (project.organization_id = organization_id
    ∧ project.status = ObjectStatus.active)

/-- `OrganizationGlobalAccess.accessible_team_ids`: all active teams of the
organization, queried from the `Team` table. -/
def OrganizationGlobalAccess.accessible_team_ids (db : Database)
    (organization_id : Nat) : Finset Nat :=
  ((db.teams.filter fun t =>
      t.organization_id == organization_id
        && t.status == TeamStatus.active).map fun t => t.id).toFinset

/-- `OrganizationGlobalAccess.accessible_project_ids`. -/
def OrganizationGlobalAccess.accessible_project_ids (db : Database)
    (organization_id : Nat) : Finset Nat :=
  ((db.projects.filter fun p =>
      p.organization_id == organization_id
        && p.status == ObjectStatus.active).map fun p => p.id).toFinset

/-- `ApiBackedOrganizationGlobalAccess.has_team_access`. -/
def ApiBackedOrganizationGlobalAccess.has_team_access
    (a : RpcBackedAccess) (team : Team) : Bool :=
  decide (team.organization_id = a.rpc_user_organization_context.organization.id
    ∧ team.status = TeamStatus.active)

/-- `ApiBackedOrganizationGlobalAccess.has_project_access`. -/
def ApiBackedOrganizationGlobalAccess.has_project_access
    (a : RpcBackedAccess) (project : Project) : Bool :=
  decide (project.organization_id = a.rpc_user_organization_context.organization.id
    ∧ project.status = ObjectStatus.active)

/-- `ApiBackedOrganizationGlobalAccess.accessible_team_ids`: active teams of
the context organization. -/
def ApiBackedOrganizationGlobalAccess.accessible_team_ids
    (a : RpcBackedAccess) : Finset Nat :=
  ((a.rpc_user_organization_context.organization.teams.filter fun t =>
      t.status == TeamStatus.active).map fun t => t.id).toFinset

/-- `ApiBackedOrganizationGlobalAccess.accessible_project_ids`. -/
def ApiBackedOrganizationGlobalAccess.accessible_project_ids
    (a : RpcBackedAccess) : Finset Nat :=
  ((a.rpc_user_organization_context.organization.projects.filter fun p =>
      p.status == ObjectStatus.active).map fun p => p.id).toFinset

/-- The concrete `Access` variants constructed by the module. Each
constructor corresponds to one concrete class; shared superclass state is
carried in the `DbAccess` / `RpcBackedAccess` records. -/
inductive Access where
  | organizationMember (a : DbAccess)
  | organizationGlobal (organization_id : Nat) (a : DbAccess)
  | organizationGlobalMembership (organization_id : Nat) (a : DbAccess)
  | rpcBacked (a : RpcBackedAccess)
  | apiGlobal (a : RpcBackedAccess)
  | apiGlobalMembership (a : RpcBackedAccess)
  | organizationless (auth_state : RpcAuthState)
  | system
  | noAccess

/-- `NoAccess.__init__`: the auth state it passes to
`OrganizationlessAccess`. -/
def NoAccess.auth_state : RpcAuthState :=
  { sso_state := { is_required := false, is_valid := true }, permissions := [] }

/-- `SystemAccess.__init__`: the auth state it passes to
`OrganizationlessAccess`. -/
def SystemAccess.auth_state : RpcAuthState :=
  { sso_state := { is_required := false, is_valid := false }, permissions := [] }

/-- The module-level `DEFAULT = NoAccess()` singleton. -/
def DEFAULT : Access := Access.noAccess

/-- `Access.scopes` across the variants: the `DbAccess` field, the
`RpcBackedAccess.scopes` property, the `ApiBackedOrganizationGlobalAccess`
override (`frozenset(self.scopes_upper_bound or [])`), or the
`OrganizationlessAccess` empty set. -/
def Access.scopes : Access → Finset String
  | .organizationMember a => a.scopes
  | .organizationGlobal _ a => a.scopes
  | .organizationGlobalMembership _ a => a.scopes
  | .rpcBacked a => a.scopes
  | .apiGlobal a => (a.scopes_upper_bound).getD ∅
  | .apiGlobalMembership a => (a.scopes_upper_bound).getD ∅
  | .organizationless _ => ∅
  | .system => ∅
  | .noAccess => ∅

/-- `Access.permissions` across the variants (`SystemAccess`/`NoAccess`
carry an empty permission list in their constructed auth state). -/
def Access.permissions : Access → Finset String
  | .organizationMember a => a.permissions
  | .organizationGlobal _ a => a.permissions
  | .organizationGlobalMembership _ a => a.permissions
  | .rpcBacked a => a.auth_state.permissions.toFinset
  | .apiGlobal a => a.auth_state.permissions.toFinset
  | .apiGlobalMembership a => a.auth_state.permissions.toFinset
  | .organizationless st => st.permissions.toFinset
  | .system => SystemAccess.auth_state.permissions.toFinset
  | .noAccess => NoAccess.auth_state.permissions.toFinset

/-- `has_scope`: membership in `scopes`; overridden by `SystemAccess` to
always hold. -/
def Access.has_scope (a : Access) (scope : String) : Bool :=
  match a with
  | .system => true
  | _ => decide (scope ∈ a.scopes)

/-- `has_permission`: membership in `permissions`; overridden by
`SystemAccess` to always hold. -/
def Access.has_permission (a : Access) (permission : String) : Bool :=
  match a with
  | .system => true
  | _ => decide (permission ∈ a.permissions)

/-- `Access.has_global_access` across the variants. -/
def Access.has_global_access (roles : RoleRegistry) : Access → Bool
  | .organizationMember a => a.has_global_access
  | .organizationGlobal _ a => a.has_global_access
  | .organizationGlobalMembership _ a => a.has_global_access
  | .rpcBacked a => a.has_global_access roles
  | .apiGlobal _ => true
  | .apiGlobalMembership _ => true
  | .organizationless _ => false
  | .system => true
  | .noAccess => false

/-- `Access.team_ids_with_membership` across the variants (the
`*GlobalMembership` classes override it to `accessible_team_ids`). -/
def Access.team_ids_with_membership (db : Database) : Access → Finset Nat
  | .organizationMember a => a.team_ids_with_membership db
  | .organizationGlobal _ a => a.team_ids_with_membership db
  | .organizationGlobalMembership organization_id _ =>
      OrganizationGlobalAccess.accessible_team_ids db organization_id
  | .rpcBacked a => a.team_ids_with_membership
  | .apiGlobal a => a.team_ids_with_membership
  | .apiGlobalMembership a =>
      ApiBackedOrganizationGlobalAccess.accessible_team_ids a
  | .organizationless _ => ∅
  | .system => ∅
  | .noAccess => ∅

/-- `Access.accessible_team_ids` across the variants (the `*Global*`
classes override it; `DbAccess`/`RpcBackedAccess` return
`team_ids_with_membership`; `SystemAccess` keeps the empty override). -/
def Access.accessible_team_ids (db : Database) : Access → Finset Nat
  | .organizationMember a => a.team_ids_with_membership db
  | .organizationGlobal organization_id _ =>
      OrganizationGlobalAccess.accessible_team_ids db organization_id
  | .organizationGlobalMembership organization_id _ =>
      OrganizationGlobalAccess.accessible_team_ids db organization_id
  | .rpcBacked a => a.team_ids_with_membership
  | .apiGlobal a => ApiBackedOrganizationGlobalAccess.accessible_team_ids a
  | .apiGlobalMembership a =>
      ApiBackedOrganizationGlobalAccess.accessible_team_ids a
  | .organizationless _ => ∅
  | .system => ∅
  | .noAccess => ∅

/-- `Access.project_ids_with_team_membership` across the variants. -/
def Access.project_ids_with_team_membership (db : Database) :
    Access → Finset Nat
  | .organizationMember a => a.project_ids_with_team_membership db
  | .organizationGlobal _ a => a.project_ids_with_team_membership db
  | .organizationGlobalMembership organization_id _ =>
      OrganizationGlobalAccess.accessible_project_ids db organization_id
  | .rpcBacked a => a.project_ids_with_team_membership
  | .apiGlobal a => a.project_ids_with_team_membership
  | .apiGlobalMembership a =>
      ApiBackedOrganizationGlobalAccess.accessible_project_ids a
  | .organizationless _ => ∅
  | .system => ∅
  | .noAccess => ∅

/-- `Access.accessible_project_ids` across the variants. -/
def Access.accessible_project_ids (db : Database) : Access → Finset Nat
  | .organizationMember a => a.project_ids_with_team_membership db
  | .organizationGlobal organization_id _ =>
      OrganizationGlobalAccess.accessible_project_ids db organization_id
  | .organizationGlobalMembership organization_id _ =>
      OrganizationGlobalAccess.accessible_project_ids db organization_id
  | .rpcBacked a => a.project_ids_with_team_membership
  | .apiGlobal a => ApiBackedOrganizationGlobalAccess.accessible_project_ids a
  | .apiGlobalMembership a =>
      ApiBackedOrganizationGlobalAccess.accessible_project_ids a
  | .organizationless _ => ∅
  | .system => ∅
  | .noAccess => ∅

/-- `Access.has_team_access` across the variants. The
`OrganizationMemberAccess` branch mirrors the override that asserts
`self._member is not None` (the constructor always sets it); a missing
member denies. -/
def Access.has_team_access (db : Database) (roles : RoleRegistry)
    (a : Access) (team : Team) : Bool :=
  match a with
  | .organizationMember b =>
    match b._member with
    | some m =>
      if team.status ≠ TeamStatus.active then false
      else if b.has_global_access ∧ m.organization.id = team.organization_id
        then true
      else decide (team.id ∈ b.team_ids_with_membership db)
    | none => false
  | .organizationGlobal organization_id _ =>
      OrganizationGlobalAccess.has_team_access organization_id team
  | .organizationGlobalMembership organization_id _ =>
      OrganizationGlobalAccess.has_team_access organization_id team
  | .rpcBacked b => b.has_team_access roles team
  | .apiGlobal b => ApiBackedOrganizationGlobalAccess.has_team_access b team
  | .apiGlobalMembership b =>
      ApiBackedOrganizationGlobalAccess.has_team_access b team
  | .organizationless _ => false
  | .system => true
  | .noAccess => false

/-- `Access.has_project_access` across the variants. -/
def Access.has_project_access (db : Database) (roles : RoleRegistry)
    (a : Access) (project : Project) : Bool :=
  match a with
  | .organizationMember b =>
    match b._member with
    | some m =>
      if project.status ≠ ObjectStatus.active then false
      else if b.has_global_access ∧ m.organization.id = project.organization_id
        then true
      else decide (project.id ∈ b.project_ids_with_team_membership db)
    | none => false
  | .organizationGlobal organization_id _ =>
      OrganizationGlobalAccess.has_project_access organization_id project
  | .organizationGlobalMembership organization_id _ =>
      OrganizationGlobalAccess.has_project_access organization_id project
  | .rpcBacked b => b.has_project_access roles project
  | .apiGlobal b => ApiBackedOrganizationGlobalAccess.has_project_access b project
  | .apiGlobalMembership b =>
      ApiBackedOrganizationGlobalAccess.has_project_access b project
  | .organizationless _ => false
  | .system => true
  | .noAccess => false

/-- `has_team_membership`: base-class membership test, overridden by the
`*GlobalMembership` classes to `has_team_access`. -/
def Access.has_team_membership (db : Database) (a : Access)
    (team : Team) : Bool :=
  match a with
  | .organizationGlobalMembership organization_id _ =>
      OrganizationGlobalAccess.has_team_access organization_id team
  | .apiGlobalMembership b =>
      ApiBackedOrganizationGlobalAccess.has_team_access b team
  | _ => decide (team.id ∈ a.team_ids_with_membership db)

/-- `has_project_membership`: base-class membership test, overridden by the
`*GlobalMembership` classes to `has_project_access`. -/
def Access.has_project_membership (db : Database) (a : Access)
    (project : Project) : Bool :=
  match a with
  | .organizationGlobalMembership organization_id _ =>
      OrganizationGlobalAccess.has_project_access organization_id project
  | .apiGlobalMembership b =>
      ApiBackedOrganizationGlobalAccess.has_project_access b project
  | _ => decide (project.id ∈ a.project_ids_with_team_membership db)

/-- `has_projects_access`: `all(...)` over the requested projects
(base-class method, not overridden). -/
def Access.has_projects_access (db : Database) (roles : RoleRegistry)
    (a : Access) (projects : List Project) : Bool :=
  projects.all fun p => Access.has_project_access db roles a p

/-- Alias for the module-level `has_role_in_organization`, needed because
inside `Access.has_role_in_organization` the bare name resolves to the
method being defined. -/
def hasRoleInOrganizationQuery (db : Database) (role : String)
    (organization : Organization) (user_id : Nat) : Bool :=
  has_role_in_organization db role organization user_id

/-- `Access.has_role_in_organization` across the variants. `DbAccess`
checks its member's user id with `is not None`; `RpcBackedAccess` and
`OrganizationlessAccess` use Python truthiness (`if member.user_id:` /
`if user_id:`), under which id 0 is falsy. -/
def Access.has_role_in_organization (db : Database) (a : Access)
    (role : String) (organization : Organization)
    (user_id : Option Nat) : Bool :=
  match a with
  | .organizationMember b | .organizationGlobal _ b
  | .organizationGlobalMembership _ b =>
    match b._member with
    | some m =>
      match m.user_id with
      | some uid => hasRoleInOrganizationQuery db role organization uid
      | none => false
    | none => false
  | .rpcBacked b | .apiGlobal b | .apiGlobalMembership b =>
    match b.rpc_user_organization_context.member with
    | some m =>
      match m.user_id with
      | some uid =>
        if uid ≠ 0 then hasRoleInOrganizationQuery db role organization uid
        else false
      | none => false
    | none => false
  | .organizationless _ | .system | .noAccess =>
    match user_id with
    | some uid =>
      if uid ≠ 0 then hasRoleInOrganizationQuery db role organization uid
      else false
    | none => false

/-- `Access.has_team_scope` across the variants. The `DbAccess` and
`RpcBackedAccess` method bodies call `self.has_team_access` /
`self.has_scope`, which dispatch dynamically, so the bodies are inlined
here over the `Access` dispatch. `OrganizationlessAccess` overrides the
method to return false. -/
def Access.has_team_scope (db : Database) (roles : RoleRegistry)
    (a : Access) (team : Team) (scope : String) : Bool :=
  match a with
  | .organizationless _ | .system | .noAccess => false
  | .organizationMember b | .organizationGlobal _ b
  | .organizationGlobalMembership _ b =>
    if ¬ Access.has_team_access db roles a team then false
    else if Access.has_scope a scope then true
    else
      match DbAccess.team_membership_get db b team with
      | none => false
      | some membership =>
        let team_scopes := cap_by_upper_bound b.scopes_upper_bound membership.scopes
        decide (scope ∈ team_scopes)
  | .rpcBacked b | .apiGlobal b | .apiGlobalMembership b =>
    if ¬ Access.has_team_access db roles a team then false
    else if Access.has_scope a scope then true
    else
      match b.rpc_user_organization_context.member with
      | none => false
      | some _ =>
        match b.get_team_membership team.id with
        | none => false
        | some team_membership =>
          let team_scopes :=
            cap_by_upper_bound b.scopes_upper_bound team_membership.scopes.toFinset
          decide (scope ∈ team_scopes)

/-- `Access.has_any_project_scope` across the variants: project access
first, then directly-held scopes, then - when the organization has the
"team-roles" feature - the team-role derived scopes of the project's teams
that intersect the caller's memberships, capped by the upper bound. The
`self.*` calls of the source bodies dispatch dynamically and are inlined
over the `Access` dispatch. -/
def Access.has_any_project_scope (db : Database) (roles : RoleRegistry)
    (a : Access) (project : Project) (scopes : List String) : Bool :=
  match a with
  | .organizationless _ | .system | .noAccess =>
    if ¬ Access.has_project_access db roles a project then false
    else scopes.any fun scope => Access.has_scope a scope
  | .organizationMember b | .organizationGlobal _ b
  | .organizationGlobalMembership _ b =>
    if ¬ Access.has_project_access db roles a project then false
    else if scopes.any (fun scope => Access.has_scope a scope) then true
    else
      match b._member with
      | some m =>
        if m.organization.feature_team_roles then
          let memberships := project.teams.filterMap fun t =>
            DbAccess.team_membership_get db b t
          memberships.any fun membership =>
            let team_scopes :=
              cap_by_upper_bound b.scopes_upper_bound membership.scopes
            scopes.any fun scope => decide (scope ∈ team_scopes)
        else false
      | none => false
  | .rpcBacked b | .apiGlobal b | .apiGlobalMembership b =>
    if ¬ Access.has_project_access db roles a project then false
    else if scopes.any (fun scope => Access.has_scope a scope) then true
    else
      match b.rpc_user_organization_context.member with
      | some m =>
        if b.rpc_user_organization_context.organization.feature_team_roles then
          let project_teams_id := (project.teams.map fun t => t.id).toFinset
          m.member_teams.any fun member_team =>
            match member_team.role with
            | none => false
            | some r =>
              if member_team.team_id ∉ project_teams_id then false
              else
                let team_scopes := cap_by_upper_bound b.scopes_upper_bound r.scopes
                scopes.any fun scope => decide (scope ∈ team_scopes)
        else false
      | none => false

/-- `has_project_scope` (base-class method, not overridden): delegates to
`has_any_project_scope` with a one-element scope list. -/
def Access.has_project_scope (db : Database) (roles : RoleRegistry)
    (a : Access) (project : Project) (scope : String) : Bool :=
  Access.has_any_project_scope db roles a project [scope]

/-- `normalize_valid_user`: `None`, anonymous or inactive users normalize
to `None`. -/
def normalize_valid_user (user : Option RequestUser) : Option RequestUser :=
  match user with
  | none => none
  | some u => if u.is_anonymous || !u.is_active then none else some u

/-- `organizationless_access`: an `OrganizationlessAccess` carrying the
auth state returned by the external `access_service` (modelled as the
`get_user_auth_state` parameter). -/
def organizationless_access (get_user_auth_state : RpcAuthState) : Access :=
  Access.organizationless get_user_auth_state

/-- `from_rpc_member`: `DEFAULT` when the context has no user id, else an
`RpcBackedAccess` whose auth state is the supplied one or the
`access_service` response (`get_user_auth_state` parameter). -/
def from_rpc_member (get_user_auth_state : RpcAuthState)
    (rpc_user_organization_context : RpcUserOrganizationContext)
    (scopes : Option (Finset String))
    (auth_state : Option RpcAuthState) : Access :=
  match rpc_user_organization_context.user_id with
  | none => DEFAULT
  | some _ =>
    Access.rpcBacked
      { rpc_user_organization_context := rpc_user_organization_context
        scopes_upper_bound := scopes
        auth_state := auth_state.getD get_user_auth_state }

/-- `from_user_and_rpc_user_org_context`. -/
def from_user_and_rpc_user_org_context (get_user_auth_state : RpcAuthState)
    (user : Option RequestUser)
    (rpc_user_org_context : Option RpcUserOrganizationContext)
    (scopes : Option (Finset String))
    (auth_state : Option RpcAuthState) : Access :=
  match normalize_valid_user user with
  | none => DEFAULT
  | some _ =>
    match rpc_user_org_context with
    | none => organizationless_access get_user_auth_state
    | some ctx =>
      if ctx.member.isSome then
        from_rpc_member get_user_auth_state ctx scopes auth_state
      else organizationless_access get_user_auth_state

/-- `OrganizationMemberAccess.__init__`: builds the underlying `DbAccess`
from the `access_service` auth state (parameter), the member's
organization flags and role (`has_global_access`), and the caller-supplied
scopes, permissions and upper bound. `has_open_membership` keeps the
`DbAccess` default (the constructor does not pass it). -/
def OrganizationMemberAccess.make (roles : RoleRegistry)
    (auth_state : RpcAuthState) (member : OrganizationMember)
    (scopes : Finset String) (permissions : Finset String)
    (scopes_upper_bound : Option (Finset String)) : Access :=
  Access.organizationMember
    { sso_is_valid := auth_state.sso_state.is_valid
      requires_sso := auth_state.sso_state.is_required
      has_global_access :=
        member.organization.allow_joinleave || (roles member.role).is_global
      scopes := scopes
      permissions := permissions
      scopes_upper_bound := scopes_upper_bound
      _member := some member }

/-- `from_member`: scope intersection with the membership's scopes when a
scope list is requested, admin permissions (from the external
`access_service`, modelled by `get_permissions_for_user`) only for
elevated sessions with a user id. -/
def from_member (roles : RoleRegistry) (auth_state : RpcAuthState)
    (get_permissions_for_user : Nat → Finset String)
    (member : OrganizationMember) (scopes : Option (Finset String))
    (is_superuser : Bool) (is_staff : Bool) : Access :=
  let scope_intersection :=
    match scopes with
    | some s => s ∩ member.get_scopes
    | none => member.get_scopes
  let permissions :=
    if (is_superuser || is_staff) && member.user_id.isSome then
      match member.user_id with
      | some uid => get_permissions_for_user uid
      | none => ∅
    else ∅
  OrganizationMemberAccess.make roles auth_state member scope_intersection
    permissions scopes

/-- `from_user`: `DEFAULT` for an invalid user, organizationless access
without an organization or membership row, else `from_member` on the row
found in the `OrganizationMember` table (with the organization relation
replaced by the passed organization, as the source does). -/
def from_user (roles : RoleRegistry) (get_user_auth_state : RpcAuthState)
    (get_permissions_for_user : Nat → Finset String) (db : Database)
    (user : Option RequestUser) (organization : Option Organization)
    (scopes : Option (Finset String))
    (is_superuser : Bool) (is_staff : Bool) : Access :=
  match normalize_valid_user user with
  | none => DEFAULT
  | some u =>
    match organization with
    | none => organizationless_access get_user_auth_state
    | some org =>
      match db.organization_members.find? fun m =>
          m.user_id == u.id && m.organization.id == org.id with
      | none => organizationless_access get_user_auth_state
      | some om =>
        from_member roles get_user_auth_state get_permissions_for_user
          { om with organization := org } scopes is_superuser is_staff

/-- `from_auth`: the internal system credential yields `SystemAccess`; a
credential bound to the requested organization yields an
`OrganizationGlobalAccess` carrying `settings.SENTRY_SCOPES` (parameter);
anything else yields `DEFAULT`. -/
def from_auth (SENTRY_SCOPES : Finset String) (auth : AuthenticatedToken)
    (organization : Organization) : Access :=
  if is_system_auth auth then Access.system
  else
    match auth.organization_id with
    | some oid =>
      if oid = organization.id then
        Access.organizationGlobal oid
          { has_global_access := true
            scopes := SENTRY_SCOPES
            sso_is_valid := true }
      else DEFAULT
    | none => DEFAULT

/-- `from_rpc_auth`: as `from_auth` but returning an
`ApiBackedOrganizationGlobalAccess` over the RPC context. -/
def from_rpc_auth (SENTRY_SCOPES : Finset String) (auth : AuthenticatedToken)
    (rpc_user_org_context : RpcUserOrganizationContext) : Access :=
  if is_system_auth auth then Access.system
  else if auth.organization_id = some rpc_user_org_context.organization.id then
    Access.apiGlobal
      { rpc_user_organization_context := rpc_user_org_context
        scopes_upper_bound := some SENTRY_SCOPES
        auth_state :=
          { sso_state := { is_valid := true, is_required := false }
            permissions := [] } }
  else DEFAULT

/-- `_from_sentry_app`: the sentry-app lookup and installation check are
external collaborators, modelled as the `sentry_app` (the app's scope list
when one exists for the proxy user) and `is_installed` parameters. -/
def from_sentry_app (sentry_app : Option (List String)) (is_installed : Bool)
    (organization : Option Organization) : Access :=
  match organization with
  | none => Access.noAccess
  | some org =>
    match sentry_app with
    | none => Access.noAccess
    | some scope_list =>
      if ¬ is_installed then Access.noAccess
      else
        Access.organizationGlobalMembership org.id
          { has_global_access := true
            scopes := scope_list.toFinset
            sso_is_valid := true }

/-- `_from_rpc_sentry_app`: the installation lookup (`app_service`) is an
external collaborator, modelled as the `find_installation` parameter (the
installed app's scope list, when an installation exists). -/
def from_rpc_sentry_app (find_installation : Option (List String))
    (context : Option RpcUserOrganizationContext) : Access :=
  match context with
  | none => Access.noAccess
  | some ctx =>
    match ctx.user_id with
    | none => Access.noAccess
    | some _ =>
      match find_installation with
      | none => Access.noAccess
      | some scope_list =>
        Access.apiGlobalMembership
          { rpc_user_organization_context := ctx
            scopes_upper_bound := some scope_list.toFinset
            auth_state :=
              { sso_state := { is_valid := true, is_required := false }
                permissions := [] } }

/-- `from_request_org_and_scopes`. External collaborators are parameters:
`is_superuser`/`is_staff` model `is_active_superuser`/`is_active_staff`,
`get_user_auth_state` the `access_service` response, `get_superuser_scopes`
the elevated base scope set, `find_installation` the sentry-app
installation lookup, `SENTRY_SCOPES` the settings constant. The
truthiness tests `if scopes:` and `if member and member.scopes:` skip the
unions on empty collections. -/
def from_request_org_and_scopes (roles : RoleRegistry)
    (is_superuser : Bool) (is_staff : Bool)
    (get_user_auth_state : RpcAuthState) (get_superuser_scopes : Finset String)
    (find_installation : Option (List String)) (SENTRY_SCOPES : Finset String)
    (request : Request)
    (rpc_user_org_context : Option RpcUserOrganizationContext)
    (scopes : Option (Finset String)) : Access :=
  match rpc_user_org_context with
  | none =>
    from_user_and_rpc_user_org_context get_user_auth_state
      (some request.user) none scopes none
  | some ctx =>
    if request.user.is_sentry_app then
      from_rpc_sentry_app find_installation (some ctx)
    else if is_superuser then
      let member := ctx.member
      let auth_state := get_user_auth_state
      let superuser_scopes := get_superuser_scopes
      let superuser_scopes :=
        match scopes with
        | some s => if s ≠ ∅ then superuser_scopes ∪ s else superuser_scopes
        | none => superuser_scopes
      let superuser_scopes :=
        match member with
        | some m =>
          if m.scopes ≠ [] then superuser_scopes ∪ m.scopes.toFinset
          else superuser_scopes
        | none => superuser_scopes
      Access.apiGlobal
        { rpc_user_organization_context := ctx
          scopes_upper_bound := some superuser_scopes
          auth_state := auth_state }
    else
      match request.auth with
      | some auth =>
        if ¬ request.user.is_authenticated then
          from_rpc_auth SENTRY_SCOPES auth ctx
        else
          from_user_and_rpc_user_org_context get_user_auth_state
            (some request.user) (some ctx) scopes none
      | none =>
        from_user_and_rpc_user_org_context get_user_auth_state
          (some request.user) (some ctx) scopes none

/-- `from_request`. External collaborators as in
`from_request_org_and_scopes`; `sentry_app`/`is_installed` model the
`_from_sentry_app` lookups, `get_permissions_for_user` the
`access_service` permission query. In the superuser branch the member row
is looked up in the `OrganizationMember` table and the walrus test
`if member and (member_scopes := member.get_scopes()):` skips the union
when the membership grants no scopes. -/
def from_request (roles : RoleRegistry)
    (is_superuser : Bool) (is_staff : Bool)
    (get_user_auth_state : RpcAuthState)
    (get_permissions_for_user : Nat → Finset String)
    (get_superuser_scopes : Finset String)
    (sentry_app : Option (List String)) (is_installed : Bool)
    (SENTRY_SCOPES : Finset String) (db : Database) (request : Request)
    (organization : Option Organization)
    (scopes : Option (Finset String)) : Access :=
  match organization with
  | none =>
    from_user roles get_user_auth_state get_permissions_for_user db
      (some request.user) none scopes is_superuser is_staff
  | some org =>
    if request.user.is_sentry_app then
      from_sentry_app sentry_app is_installed (some org)
    else if is_superuser then
      let member := db.organization_members.find? fun m =>
        m.user_id == request.user.id && m.organization.id == org.id
      let auth_state := get_user_auth_state
      let superuser_scopes := get_superuser_scopes
      let superuser_scopes :=
        match scopes with
        | some s => if s ≠ ∅ then superuser_scopes ∪ s else superuser_scopes
        | none => superuser_scopes
      let superuser_scopes :=
        match member with
        | some m =>
          if m.get_scopes ≠ ∅ then superuser_scopes ∪ m.get_scopes
          else superuser_scopes
        | none => superuser_scopes
      Access.organizationGlobal org.id
        { sso_is_valid := auth_state.sso_state.is_valid
          requires_sso := auth_state.sso_state.is_required
          has_global_access := true
          scopes := superuser_scopes
          permissions :=
            match request.user.id with
            | some uid => get_permissions_for_user uid
            | none => ∅
          _member := member }
    else
      match request.auth with
      | some auth =>
        if ¬ request.user.is_authenticated then from_auth SENTRY_SCOPES auth org
        else
          from_user roles get_user_auth_state get_permissions_for_user db
            (some request.user) (some org) scopes false is_staff
      | none =>
        from_user roles get_user_auth_state get_permissions_for_user db
          (some request.user) (some org) scopes false is_staff

/-- Spec-side formula (claims C5 / spec §4.3) for member-backed
`has_team_access`: false if the team is inactive; true if global access
holds and the evaluator's organization id equals the team's organization
id; else membership of the team id in `team_ids_with_membership`. -/
def spec_team_access (global : Bool) (evaluator_org_id : Nat)
    (team_ids : Finset Nat) (team : Team) : Bool :=
  if team.status ≠ TeamStatus.active then false
  else if global ∧ evaluator_org_id = team.organization_id then true
  else decide (team.id ∈ team_ids)

/-- Spec-side formula (claims C6 / spec §4.3) for member-backed
`has_project_access`: false if the project is inactive; true if global
access holds, a membership record exists, and the evaluator's organization
id equals the project's organization id; else membership of the project id
in `project_ids_with_team_membership`. -/
def spec_project_access (global : Bool) (member_exists : Bool)
    (evaluator_org_id : Nat) (project_ids : Finset Nat)
    (project : Project) : Bool :=
  if project.status ≠ ObjectStatus.active then false
  else if global ∧ member_exists ∧ evaluator_org_id = project.organization_id
    then true
  else decide (project.id ∈ project_ids)

/-- A role registry granting no scopes and no global flag (sample input). -/
def roles0 : RoleRegistry := fun _ => { scopes := ∅, is_global := false }

/-- An empty database (sample input). -/
def db0 : Database :=
  { organization_members := []
    organization_member_teams := []
    teams := []
    projects := [] }

/-- A closed-membership organization (sample input). -/
def org0 : Organization :=
  { id := 1
    allow_joinleave := false
    feature_team_roles := false
    teams := []
    projects := [] }

/-- An active team of `org0` (sample input). -/
def team0 : Team := { id := 10, organization_id := 1, status := TeamStatus.active }

/-- An active project of `org0` (sample input). -/
def project0 : Project :=
  { id := 20, organization_id := 1, status := ObjectStatus.active, teams := [] }

/-- An RPC member snapshot with the non-global "member" role (sample
input). -/
def member0 : RpcOrganizationMember :=
  { user_id := some 1
    role := "member"
    scopes := ["project:read"]
    member_teams := []
    project_ids := [] }

/-- An RPC context for `member0` in `org0` (sample input). -/
def ctx0 : RpcUserOrganizationContext :=
  { user_id := some 1, organization := org0, member := some member0 }

/-- An authenticated, active, non-service human user (sample input). -/
def user0 : RequestUser :=
  { id := some 1
    is_anonymous := false
    is_active := true
    is_authenticated := true
    is_sentry_app := false }

/-- A cookie-session request (no bearer token) by `user0` (sample
input). -/
def request0 : Request := { user := user0, auth := none }

/-- A valid-SSO auth state with no admin permissions (sample input). -/
def authState0 : RpcAuthState :=
  { sso_state := { is_required := false, is_valid := true }, permissions := [] }

/-- An elevated base scope set (sample input). -/
def suScopes0 : Finset String := (["org:superuser", "org:read"]).toFinset

/-- C1: for the `SystemAccess` variant, `has_scope`, `has_permission`,
`has_team_access` and `has_project_access` return true for every input,
and `accessible_team_ids` / `accessible_project_ids` are both empty. -/
theorem systemAccess_bypasses_checks_with_empty_id_sets (db : Database)
    (roles : RoleRegistry) (scope permission : String) (team : Team)
    (project : Project) :
    Access.has_scope Access.system scope = true ∧
    Access.has_permission Access.system permission = true ∧
    Access.has_team_access db roles Access.system team = true ∧
    Access.has_project_access db roles Access.system project = true ∧
    Access.accessible_team_ids db Access.system = ∅ ∧
    Access.accessible_project_ids db Access.system = ∅ :=
  ⟨rfl, rfl, rfl, rfl, rfl, rfl⟩

/-- C3: for every evaluator variant, `has_project_scope(p, s)` agrees with
`has_any_project_scope(p, [s])`: the base class defines the former as the
latter on a one-element collection and no variant overrides it. -/
theorem has_project_scope_agrees_with_singleton_any (db : Database)
    (roles : RoleRegistry) (a : Access) (project : Project) (scope : String) :
    Access.has_project_scope db roles a project scope =
      Access.has_any_project_scope db roles a project [scope] :=
  rfl

/-- C10: for the `SystemAccess` variant, `has_any_project_scope` (inherited
from `OrganizationlessAccess` and evaluated with the overridden
`has_project_access`/`has_scope`) is false exactly when the requested
scope collection is empty, and true for every project otherwise. -/
theorem systemAccess_any_project_scope_iff_nonempty (db : Database)
    (roles : RoleRegistry) (project : Project) (scopes : List String) :
    (scopes = [] →
      Access.has_any_project_scope db roles Access.system project scopes = false) ∧
    (scopes ≠ [] →
      Access.has_any_project_scope db roles Access.system project scopes = true) := by
  constructor
  · rintro rfl
    rfl
  · intro h
    cases scopes with
    | nil => exact absurd rfl h
    | cons s rest =>
      simp [Access.has_any_project_scope, Access.has_project_access,
        Access.has_scope]

/-- Witness for C10 at concrete inputs. -/
theorem systemAccess_any_project_scope_iff_nonempty_witness :
    Access.has_any_project_scope db0 roles0 Access.system project0 [] = false ∧
    Access.has_any_project_scope db0 roles0 Access.system project0
      ["org:read"] = true :=
  ⟨(systemAccess_any_project_scope_iff_nonempty db0 roles0 project0 []).1 rfl,
   (systemAccess_any_project_scope_iff_nonempty db0 roles0 project0
      ["org:read"]).2 (by decide)⟩

/-- C9: for the simulated-membership global variants
(`OrganizationGlobalMembership` and `ApiOrganizationGlobalMembership`),
`team_ids_with_membership` equals `accessible_team_ids`,
`project_ids_with_team_membership` equals `accessible_project_ids`, and
the membership queries coincide with the access queries. -/
theorem global_membership_simulates_access (db : Database)
    (roles : RoleRegistry) (organization_id : Nat) (b : DbAccess)
    (r : RpcBackedAccess) (team : Team) (project : Project) :
    (Access.team_ids_with_membership db
        (Access.organizationGlobalMembership organization_id b) =
      Access.accessible_team_ids db
        (Access.organizationGlobalMembership organization_id b)) ∧
    (Access.project_ids_with_team_membership db
        (Access.organizationGlobalMembership organization_id b) =
      Access.accessible_project_ids db
        (Access.organizationGlobalMembership organization_id b)) ∧
    (Access.has_team_membership db
        (Access.organizationGlobalMembership organization_id b) team =
      Access.has_team_access db roles
        (Access.organizationGlobalMembership organization_id b) team) ∧
    (Access.has_project_membership db
        (Access.organizationGlobalMembership organization_id b) project =
      Access.has_project_access db roles
        (Access.organizationGlobalMembership organization_id b) project) ∧
    (Access.team_ids_with_membership db (Access.apiGlobalMembership r) =
      Access.accessible_team_ids db (Access.apiGlobalMembership r)) ∧
    (Access.project_ids_with_team_membership db (Access.apiGlobalMembership r) =
      Access.accessible_project_ids db (Access.apiGlobalMembership r)) ∧
    (Access.has_team_membership db (Access.apiGlobalMembership r) team =
      Access.has_team_access db roles (Access.apiGlobalMembership r) team) ∧
    (Access.has_project_membership db (Access.apiGlobalMembership r) project =
      Access.has_project_access db roles (Access.apiGlobalMembership r) project) :=
  ⟨rfl, rfl, rfl, rfl, rfl, rfl, rfl, rfl⟩

/-- Counterexample to C2 as stated: `has_projects_access` is one of the
`has_*` queries, yet on the `NoAccess` variant it returns true for the
empty project collection (the base-class `all(...)` is vacuously true). -/
theorem noAccess_projects_access_vacuously_true :
    Access.has_projects_access db0 roles0 Access.noAccess [] = true :=
  rfl

/-- C2 (amended): for the `NoAccess` variant, `scopes` and `permissions`
are empty and the `has_*` queries return false for every input - except
`has_projects_access`, which is vacuously true on the empty collection
(false on every non-empty one), and `has_role_in_organization`, which for
a supplied (non-zero) user id delegates to the database role-membership
existence check instead of returning a constant. -/
theorem noAccess_denies_everything (db : Database) (roles : RoleRegistry)
    (scope permission role_id : String) (team : Team) (project : Project)
    (scopes : List String) (organization : Organization)
    (projects : List Project) (uid : Nat) :
    Access.scopes Access.noAccess = ∅ ∧
    Access.permissions Access.noAccess = ∅ ∧
    Access.has_scope Access.noAccess scope = false ∧
    Access.has_permission Access.noAccess permission = false ∧
    Access.has_team_access db roles Access.noAccess team = false ∧
    Access.has_team_scope db roles Access.noAccess team scope = false ∧
    Access.has_project_access db roles Access.noAccess project = false ∧
    Access.has_any_project_scope db roles Access.noAccess project scopes = false ∧
    Access.has_team_membership db Access.noAccess team = false ∧
    Access.has_project_membership db Access.noAccess project = false ∧
    (projects ≠ [] →
      Access.has_projects_access db roles Access.noAccess projects = false) ∧
    Access.has_role_in_organization db Access.noAccess role_id organization
      none = false ∧
    (Access.has_role_in_organization db Access.noAccess role_id organization
        (some uid) =
      if uid ≠ 0 then has_role_in_organization db role_id organization uid
      else false) := by
  refine ⟨rfl, by simp [Access.permissions, NoAccess.auth_state], ?_, ?_, rfl,
    rfl, rfl, ?_, ?_, ?_, ?_, rfl, rfl⟩
  · simp [Access.has_scope, Access.scopes]
  · simp [Access.has_permission, Access.permissions, NoAccess.auth_state]
  · simp [Access.has_any_project_scope, Access.has_project_access]
  · simp [Access.has_team_membership, Access.team_ids_with_membership]
  · simp [Access.has_project_membership, Access.project_ids_with_team_membership]
  · intro h
    cases projects with
    | nil => exact absurd rfl h
    | cons p rest =>
      simp [Access.has_projects_access, Access.has_project_access]

/-- Witness for the amended C2 at concrete inputs, discharging the
non-empty-collection hypothesis. -/
theorem noAccess_denies_everything_witness :
    Access.has_projects_access db0 roles0 Access.noAccess [project0] = false :=
  (noAccess_denies_everything db0 roles0 "org:read" "broadcasts.admin"
      "member" team0 project0 [] org0 [project0]
      1).2.2.2.2.2.2.2.2.2.2.1 (by decide)

/-- C4: for member-backed evaluators, without an upper bound the effective
scopes equal the membership's scopes (for `from_member`, the role scopes
unioned with the explicit extra scopes, i.e. `get_scopes`); with an upper
bound they equal the membership's scopes intersected with it, hence are a
subset of it. -/
theorem member_backed_scopes_respect_upper_bound (roles : RoleRegistry)
    (auth_state : RpcAuthState) (get_permissions_for_user : Nat → Finset String)
    (b : RpcBackedAccess) (m : RpcOrganizationMember)
    (member : OrganizationMember) (is_superuser is_staff : Bool)
    (hm : b.rpc_user_organization_context.member = some m) :
    (b.scopes_upper_bound = none → b.scopes = m.scopes.toFinset) ∧
    (∀ upper, b.scopes_upper_bound = some upper →
      b.scopes = m.scopes.toFinset ∩ upper ∧ b.scopes ⊆ upper) ∧
    (Access.scopes
        (from_member roles auth_state get_permissions_for_user member none
          is_superuser is_staff) =
      member.get_scopes) ∧
    (∀ upper,
      Access.scopes
          (from_member roles auth_state get_permissions_for_user member
            (some upper) is_superuser is_staff) =
        upper ∩ member.get_scopes ∧
      Access.scopes
          (from_member roles auth_state get_permissions_for_user member
            (some upper) is_superuser is_staff) ⊆
        upper) := by
  refine ⟨?_, ?_, rfl, fun upper => ⟨rfl, ?_⟩⟩
  · intro h
    simp [RpcBackedAccess.scopes, hm, h]
  · intro upper h
    constructor
    · simp [RpcBackedAccess.scopes, hm, h]
    · intro x hx
      simp [RpcBackedAccess.scopes, hm, h] at hx
      exact hx.2
  · show Access.scopes (Access.organizationMember _) ⊆ upper
    exact Finset.inter_subset_left

/-- Witness for C4 at concrete inputs: an `RpcBackedAccess` over `ctx0`
with upper bound `{project:read, org:read}`. -/
theorem member_backed_scopes_respect_upper_bound_witness :
    (RpcBackedAccess.scopes
        { rpc_user_organization_context := ctx0
          scopes_upper_bound := some (["project:read", "org:read"]).toFinset
          auth_state := authState0 } =
      (["project:read"] : List String).toFinset ∩
        (["project:read", "org:read"]).toFinset ∧
     RpcBackedAccess.scopes
        { rpc_user_organization_context := ctx0
          scopes_upper_bound := some (["project:read", "org:read"]).toFinset
          auth_state := authState0 } ⊆
       (["project:read", "org:read"]).toFinset) :=
  ((member_backed_scopes_respect_upper_bound roles0 authState0 (fun _ => ∅)
      { rpc_user_organization_context := ctx0
        scopes_upper_bound := some (["project:read", "org:read"]).toFinset
        auth_state := authState0 }
      member0
      { id := 1, user_id := some 1, user_is_active := true
        organization := org0, role := "member"
        role_scopes := ∅, extra_scopes := ∅ }
      false false rfl).2.1 ((["project:read", "org:read"]).toFinset) rfl)

/-- C5: member-backed `has_team_access` (both the RPC-backed and the
locally-resolved `OrganizationMemberAccess` variants) follows the
spec formula `spec_team_access`: inactive team denies; global access with
matching organization grants; else team membership decides. -/
theorem member_backed_team_access_matches_spec (db : Database)
    (roles : RoleRegistry) (b : RpcBackedAccess) (c : DbAccess)
    (m : OrganizationMember) (team : Team) (hc : c._member = some m) :
    Access.has_team_access db roles (Access.rpcBacked b) team =
      spec_team_access (b.has_global_access roles)
        b.rpc_user_organization_context.organization.id
        b.team_ids_with_membership team ∧
    Access.has_team_access db roles (Access.organizationMember c) team =
      spec_team_access c.has_global_access m.organization.id
        (c.team_ids_with_membership db) team := by
  constructor
  · rfl
  · simp only [Access.has_team_access, hc]
    rfl

/-- Witness for C5 at concrete inputs. -/
theorem member_backed_team_access_matches_spec_witness :
    Access.has_team_access db0 roles0
        (Access.organizationMember
          { scopes := ∅
            _member := some
              { id := 1, user_id := some 1, user_is_active := true
                organization := org0, role := "member"
                role_scopes := ∅, extra_scopes := ∅ } })
        team0 =
      spec_team_access false org0.id
        (DbAccess.team_ids_with_membership db0
          { scopes := ∅
            _member := some
              { id := 1, user_id := some 1, user_is_active := true
                organization := org0, role := "member"
                role_scopes := ∅, extra_scopes := ∅ } })
        team0 :=
  (member_backed_team_access_matches_spec db0 roles0
      { rpc_user_organization_context := ctx0
        scopes_upper_bound := none
        auth_state := authState0 }
      { scopes := ∅
        _member := some
          { id := 1, user_id := some 1, user_is_active := true
            organization := org0, role := "member"
            role_scopes := ∅, extra_scopes := ∅ } }
      { id := 1, user_id := some 1, user_is_active := true
        organization := org0, role := "member"
        role_scopes := ∅, extra_scopes := ∅ }
      team0 rfl).2

/-- C6: member-backed `has_project_access` follows the spec formula
`spec_project_access`: inactive project denies; global access with a
membership record and a matching organization grants (for
`OrganizationMemberAccess` the membership record always exists); else
project reachability through team membership decides. -/
theorem member_backed_project_access_matches_spec (db : Database)
    (roles : RoleRegistry) (b : RpcBackedAccess) (c : DbAccess)
    (m : OrganizationMember) (project : Project) (hc : c._member = some m) :
    Access.has_project_access db roles (Access.rpcBacked b) project =
      spec_project_access (b.has_global_access roles)
        b.rpc_user_organization_context.member.isSome
        b.rpc_user_organization_context.organization.id
        b.project_ids_with_team_membership project ∧
    Access.has_project_access db roles (Access.organizationMember c) project =
      spec_project_access c.has_global_access true m.organization.id
        (c.project_ids_with_team_membership db) project := by
  constructor
  · rfl
  · simp only [Access.has_project_access, hc, spec_project_access]
    by_cases h1 : project.status ≠ ObjectStatus.active
    · simp [h1]
    · simp only [h1, if_false]
      by_cases h2 : (c.has_global_access : Prop) ∧
          m.organization.id = project.organization_id
      · simp [h2.1, h2.2]
      · rw [if_neg h2, if_neg]
        simp only [not_and] at h2 ⊢
        intro hg _ heq
        exact h2 hg heq

/-- Witness for C6 at concrete inputs. -/
theorem member_backed_project_access_matches_spec_witness :
    Access.has_project_access db0 roles0
        (Access.organizationMember
          { scopes := ∅
            _member := some
              { id := 1, user_id := some 1, user_is_active := true
                organization := org0, role := "member"
                role_scopes := ∅, extra_scopes := ∅ } })
        project0 =
      spec_project_access false true org0.id
        (DbAccess.project_ids_with_team_membership db0
          { scopes := ∅
            _member := some
              { id := 1, user_id := some 1, user_is_active := true
                organization := org0, role := "member"
                role_scopes := ∅, extra_scopes := ∅ } })
        project0 :=
  (member_backed_project_access_matches_spec db0 roles0
      { rpc_user_organization_context := ctx0
        scopes_upper_bound := none
        auth_state := authState0 }
      { scopes := ∅
        _member := some
          { id := 1, user_id := some 1, user_is_active := true
            organization := org0, role := "member"
            role_scopes := ∅, extra_scopes := ∅ } }
      { id := 1, user_id := some 1, user_is_active := true
        organization := org0, role := "member"
        role_scopes := ∅, extra_scopes := ∅ }
      project0 rfl).2

/-- C7: bearer-credential resolution. The internal system credential
yields `SystemAccess`; a credential whose bound organization id equals the
requested organization's id yields a global-access evaluator carrying the
statically configured full scope set (`SENTRY_SCOPES`); any other
credential yields `DEFAULT` (= `NoAccess`). Both `from_auth` and
`from_rpc_auth` are total functions: every case resolves to an evaluator,
never an error. -/
theorem bearer_credential_resolution (roles : RoleRegistry)
    (SENTRY_SCOPES : Finset String) (auth : AuthenticatedToken)
    (organization : Organization) (ctx : RpcUserOrganizationContext) :
    (is_system_auth auth = true →
      from_auth SENTRY_SCOPES auth organization = Access.system ∧
      from_rpc_auth SENTRY_SCOPES auth ctx = Access.system) ∧
    (is_system_auth auth = false →
      auth.organization_id = some organization.id →
      Access.scopes (from_auth SENTRY_SCOPES auth organization) =
          SENTRY_SCOPES ∧
      Access.has_global_access roles
          (from_auth SENTRY_SCOPES auth organization) = true) ∧
    (is_system_auth auth = false →
      auth.organization_id ≠ some organization.id →
      from_auth SENTRY_SCOPES auth organization = DEFAULT) ∧
    (is_system_auth auth = false →
      auth.organization_id = some ctx.organization.id →
      Access.scopes (from_rpc_auth SENTRY_SCOPES auth ctx) = SENTRY_SCOPES ∧
      Access.has_global_access roles
          (from_rpc_auth SENTRY_SCOPES auth ctx) = true) ∧
    (is_system_auth auth = false →
      auth.organization_id ≠ some ctx.organization.id →
      from_rpc_auth SENTRY_SCOPES auth ctx = DEFAULT) := by
  refine ⟨?_, ?_, ?_, ?_, ?_⟩
  · intro h
    constructor
    · simp [from_auth, h]
    · simp [from_rpc_auth, h]
  · intro h h2
    rw [from_auth, if_neg (by simp [h]), h2]
    simp [Access.scopes, Access.has_global_access]
  · intro h h2
    rw [from_auth, if_neg (by simp [h])]
    cases ho : auth.organization_id with
    | none => rfl
    | some oid =>
      have hne : oid ≠ organization.id := fun he => h2 (by rw [ho, he])
      simp [hne]
  · intro h h2
    rw [from_rpc_auth, if_neg (by simp [h]), if_pos h2]
    exact ⟨rfl, rfl⟩
  · intro h h2
    rw [from_rpc_auth, if_neg (by simp [h]), if_neg h2]

/-- Witness for C7 at concrete inputs: a system credential, a credential
bound to the requested organization, and a cross-organization
credential. -/
theorem bearer_credential_resolution_witness :
    from_auth suScopes0 { organization_id := none, is_system := true }
        org0 = Access.system ∧
    Access.scopes
        (from_auth suScopes0 { organization_id := some 1, is_system := false }
          org0) = suScopes0 ∧
    from_auth suScopes0 { organization_id := some 2, is_system := false }
        org0 = DEFAULT ∧
    from_rpc_auth suScopes0 { organization_id := some 2, is_system := false }
        ctx0 = DEFAULT :=
  ⟨((bearer_credential_resolution roles0 suScopes0
      { organization_id := none, is_system := true } org0 ctx0).1 rfl).1,
   ((bearer_credential_resolution roles0 suScopes0
      { organization_id := some 1, is_system := false } org0 ctx0).2.1 rfl
      rfl).1,
   (bearer_credential_resolution roles0 suScopes0
      { organization_id := some 2, is_system := false } org0 ctx0).2.2.1 rfl
      (by decide),
   (bearer_credential_resolution roles0 suScopes0
      { organization_id := some 2, is_system := false } org0 ctx0).2.2.2.2 rfl
      (by decide)⟩

/-- Counterexample to C8 as stated: an actively *staff*-elevated (but not
superuser) session with an organization context present. The factory
checks only `is_active_superuser` before taking the global branch, so a
staff-only caller falls through to the ordinary member path and gets an
evaluator whose `has_global_access` is false (the member role is not
global and the organization is not open-membership) - not a global-access
evaluator with the elevated scope union. -/
theorem staff_only_elevation_is_not_global :
    Access.has_global_access roles0
      (from_request_org_and_scopes roles0 false true authState0 suScopes0
        none ∅ request0 (some ctx0) none) = false :=
  rfl

/-- C8 (amended): when the caller's session is an active *superuser*
session and an organization context is present, both factory entry points
return a global-access evaluator whose scope set is the union of the base
elevated scopes, any explicitly requested scopes, and any scopes the
caller's real membership in that organization grants, and
`has_global_access` is true. An active staff session alone does not take
this branch (staff status only feeds the auth-state computation). -/
theorem superuser_elevation_returns_global_union (roles : RoleRegistry)
    (is_staff : Bool) (auth_state : RpcAuthState)
    (get_permissions_for_user : Nat → Finset String)
    (get_superuser_scopes : Finset String)
    (find_installation sentry_app : Option (List String))
    (is_installed : Bool) (SENTRY_SCOPES : Finset String) (db : Database)
    (request : Request) (ctx : RpcUserOrganizationContext)
    (org : Organization) (scopes : Option (Finset String))
    (happ : request.user.is_sentry_app = false) :
    (Access.has_global_access roles
        (from_request_org_and_scopes roles true is_staff auth_state
          get_superuser_scopes find_installation SENTRY_SCOPES request
          (some ctx) scopes) = true ∧
     Access.scopes
        (from_request_org_and_scopes roles true is_staff auth_state
          get_superuser_scopes find_installation SENTRY_SCOPES request
          (some ctx) scopes) =
       get_superuser_scopes ∪ scopes.getD ∅ ∪
         (match ctx.member with
          | some m => m.scopes.toFinset
          | none => ∅)) ∧
    (Access.has_global_access roles
        (from_request roles true is_staff auth_state get_permissions_for_user
          get_superuser_scopes sentry_app is_installed SENTRY_SCOPES db
          request (some org) scopes) = true ∧
     Access.scopes
        (from_request roles true is_staff auth_state get_permissions_for_user
          get_superuser_scopes sentry_app is_installed SENTRY_SCOPES db
          request (some org) scopes) =
       get_superuser_scopes ∪ scopes.getD ∅ ∪
         (match db.organization_members.find? (fun m =>
             m.user_id == request.user.id && m.organization.id == org.id) with
          | some m => m.get_scopes
          | none => ∅)) := by
  refine ⟨⟨?_, ?_⟩, ⟨?_, ?_⟩⟩
  · simp [from_request_org_and_scopes, happ, Access.has_global_access]
  · rcases scopes with _ | s
    · rcases hm : ctx.member with _ | m
      · simp [from_request_org_and_scopes, happ, hm, Access.scopes]
      · by_cases hms : m.scopes = []
        · simp [from_request_org_and_scopes, happ, hm, hms, Access.scopes]
        · simp [from_request_org_and_scopes, happ, hm, hms, Access.scopes]
    · by_cases hse : s = ∅
      · rcases hm : ctx.member with _ | m
        · simp [from_request_org_and_scopes, happ, hm, hse, Access.scopes]
        · by_cases hms : m.scopes = []
          · simp [from_request_org_and_scopes, happ, hm, hse, hms, Access.scopes]
          · simp [from_request_org_and_scopes, happ, hm, hse, hms, Access.scopes]
      · rcases hm : ctx.member with _ | m
        · simp [from_request_org_and_scopes, happ, hm, hse, Access.scopes]
        · by_cases hms : m.scopes = []
          · simp [from_request_org_and_scopes, happ, hm, hse, hms, Access.scopes]
          · simp [from_request_org_and_scopes, happ, hm, hse, hms, Access.scopes]
  · simp [from_request, happ, Access.has_global_access]
  · rcases scopes with _ | s
    · rcases hm : db.organization_members.find? (fun m =>
          m.user_id == request.user.id && m.organization.id == org.id)
        with _ | m
      · simp [from_request, happ, hm, Access.scopes]
      · by_cases hms : m.get_scopes = ∅
        · simp [from_request, happ, hm, hms, Access.scopes]
        · simp [from_request, happ, hm, hms, Access.scopes]
    · by_cases hse : s = ∅
      · rcases hm : db.organization_members.find? (fun m =>
            m.user_id == request.user.id && m.organization.id == org.id)
          with _ | m
        · simp [from_request, happ, hm, hse, Access.scopes]
        · by_cases hms : m.get_scopes = ∅
          · simp [from_request, happ, hm, hse, hms, Access.scopes]
          · simp [from_request, happ, hm, hse, hms, Access.scopes]
      · rcases hm : db.organization_members.find? (fun m =>
            m.user_id == request.user.id && m.organization.id == org.id)
          with _ | m
        · simp [from_request, happ, hm, hse, Access.scopes]
        · by_cases hms : m.get_scopes = ∅
          · simp [from_request, happ, hm, hse, hms, Access.scopes]
          · simp [from_request, happ, hm, hse, hms, Access.scopes]

/-- Witness for the amended C8 at concrete inputs: a superuser session
over `ctx0` with no explicitly requested scopes. -/
theorem superuser_elevation_returns_global_union_witness :
    Access.has_global_access roles0
        (from_request_org_and_scopes roles0 true true authState0 suScopes0
          none ∅ request0 (some ctx0) none) = true ∧
    Access.scopes
        (from_request_org_and_scopes roles0 true true authState0 suScopes0
          none ∅ request0 (some ctx0) none) =
      suScopes0 ∪ (none : Option (Finset String)).getD ∅ ∪
        (match ctx0.member with
         | some m => m.scopes.toFinset
         | none => ∅) :=
  (superuser_elevation_returns_global_union roles0 true authState0 (fun _ => ∅)
      suScopes0 none none false ∅ db0 request0 ctx0 org0 none rfl).1
